import Mathlib

/-!
Shallow embedding of the websole session supervisor / duplex bridge core
(`src/websole/app.py`) and proofs about it.

Conventions of the embedding:
* Python `None` becomes `Option.none`; truthiness of an `int` descriptor is
  `n ≠ 0`, truthiness of a string is `s ≠ ""`, a `Popen` object is always
  truthy.
* Timestamps (`time.time()`) are modelled as integers (seconds); the two
  `time.time()` calls inside one request are modelled as the same instant.
* Side effects (`os.write`, `fcntl.ioctl`/`set_size`, signals, socket emits)
  are returned as explicit event lists instead of being performed.
* `bytes.decode` with an error handler is modelled by a UTF-8 decoder
  following the WHATWG/CPython invalid-sequence segmentation; the handler
  either drops the invalid sequence (`errors="ignore"`) or emits U+FFFD
  (`errors="replace"`).
-/

set_option autoImplicit false

namespace Websole

/-- Error handler of Python `bytes.decode`: `errors="ignore"` drops invalid
sequences, `errors="replace"` substitutes U+FFFD for each of them. -/
inductive DecodeMode where
  | ignoreErrors
  | replaceErrors
deriving DecidableEq

/-- The Unicode replacement character U+FFFD. -/
def replacementChar : Char := Char.ofNat 0xFFFD

/-- What a decode error contributes to the output, per error handler. -/
def errOut : DecodeMode → List Char
  | DecodeMode.ignoreErrors => []
  | DecodeMode.replaceErrors => [replacementChar]

/-- UTF-8 decoder over a byte list (bytes as `Nat`, each `< 256`), with the
invalid-sequence handling CPython uses (maximal-subpart / WHATWG rules): on
an invalid byte the decoder consumes the offending prefix, reports one error
and resumes at the first byte not part of it. -/
def utf8Decode (em : DecodeMode) : List Nat → List Char
  | [] => []
  | b :: rest =>
    if b ≤ 0x7F then
      Char.ofNat b :: utf8Decode em rest
    else if 0xC2 ≤ b ∧ b ≤ 0xDF then
      match rest with
      | [] => errOut em
      | b1 :: rest1 =>
        if 0x80 ≤ b1 ∧ b1 ≤ 0xBF then
          Char.ofNat ((b - 0xC0) * 64 + (b1 - 0x80)) :: utf8Decode em rest1
        else
          errOut em ++ utf8Decode em (b1 :: rest1)
    else if 0xE0 ≤ b ∧ b ≤ 0xEF then
      match rest with
      | [] => errOut em
      | b1 :: rest1 =>
        if (if b = 0xE0 then 0xA0 else 0x80) ≤ b1 ∧
            b1 ≤ (if b = 0xED then 0x9F else 0xBF) then
          match rest1 with
          | [] => errOut em
          | b2 :: rest2 =>
            if 0x80 ≤ b2 ∧ b2 ≤ 0xBF then
              Char.ofNat ((b - 0xE0) * 4096 + (b1 - 0x80) * 64 + (b2 - 0x80)) ::
                utf8Decode em rest2
            else
              errOut em ++ utf8Decode em (b2 :: rest2)
        else
          errOut em ++ utf8Decode em (b1 :: rest1)
    else if 0xF0 ≤ b ∧ b ≤ 0xF4 then
      match rest with
      | [] => errOut em
      | b1 :: rest1 =>
        if (if b = 0xF0 then 0x90 else 0x80) ≤ b1 ∧
            b1 ≤ (if b = 0xF4 then 0x8F else 0xBF) then
          match rest1 with
          | [] => errOut em
          | b2 :: rest2 =>
            if 0x80 ≤ b2 ∧ b2 ≤ 0xBF then
              match rest2 with
              | [] => errOut em
              | b3 :: rest3 =>
                if 0x80 ≤ b3 ∧ b3 ≤ 0xBF then
                  Char.ofNat ((b - 0xF0) * 262144 + (b1 - 0x80) * 4096 +
                      (b2 - 0x80) * 64 + (b3 - 0x80)) :: utf8Decode em rest3
                else
                  errOut em ++ utf8Decode em (b3 :: rest3)
            else
              errOut em ++ utf8Decode em (b2 :: rest2)
        else
          errOut em ++ utf8Decode em (b1 :: rest1)
    else
      errOut em ++ utf8Decode em rest
termination_by l => l.length
decreasing_by all_goals simp_all [List.length_cons]; try omega

/-- Python `bytes(bs).decode(errors=em)` as a Lean `String`. -/
def bytesDecode (em : DecodeMode) (bs : List Nat) : String :=
  String.mk (utf8Decode em bs)

/-- A `subprocess.Popen` handle: its pid and whether `poll()` returns `None`
(the process is still alive). -/
structure ProcHandle where
  pid : Nat
  alive : Bool
deriving DecidableEq

/-- The mutable part of `app.config` that the supervisor, bridge and gate
touch: pty master descriptor `fd`, process handle `proc`, history buffer
`hist`, failed-login timestamps `faillog`, the configured `webpass`
(`none` = not set, `some ""` = set to the empty string), and the
`allow_restart` flag. -/
structure AppState where
  fd : Option Nat
  proc : Option ProcHandle
  hist : String
  faillog : List Int
  webpass : Option String
  allow_restart : Bool
deriving DecidableEq

/-- Python truthiness of `app.config["fd"]` (an `int` or `None`). -/
def fdTruthy : Option Nat → Bool
  | none => false
  | some n => n != 0

/-- Python truthiness of the configured `webpass` (a `str` or `None`). -/
def passTruthy : Option String → Bool
  | none => false
  | some s => s != ""

/-- `is_authenticated()` (app.py:104): true iff no (truthy) webpass is
configured or the flask-login current user is authenticated. -/
def is_authenticated (webpass : Option String) (userLoggedIn : Bool) : Bool :=
  !passTruthy webpass || userLoggedIn

/-- Result of the `/console` route. -/
inductive PageResult where
  | unauthorized
  | rendered
deriving DecidableEq

/-- `console()` (app.py:112): render the console page iff authenticated. -/
def console (s : AppState) (userLoggedIn : Bool) : PageResult :=
  if is_authenticated s.webpass userLoggedIn then PageResult.rendered
  else PageResult.unauthorized

/-- Outcome of `login_submit()` (app.py:130). -/
inductive LoginOutcome where
  | redirected
  | errNotSet
  | errTooMany
  | errWrong
deriving DecidableEq

/-- Python `app.config["faillog"][-5:]`. -/
def lastFive (l : List Int) : List Int := l.drop (l.length - 5)

/-- The rate-limit test of app.py:136:
`sum(t > time.time() - 3600 for t in app.config["faillog"][-5:]) == 5`. -/
def rateLimited (faillog : List Int) (now : Int) : Bool :=
  (lastFive faillog).countP (fun t => decide (now - 3600 < t)) == 5

/-- `login_submit()` (app.py:130-145): returns the outcome and the new
`faillog`. `input` is `request.form.get("webpass", "")`, `now` the current
`time.time()`. -/
def login_submit (webpass : Option String) (faillog : List Int)
    (input : String) (now : Int) : LoginOutcome × List Int :=
  match webpass with
  | none => (LoginOutcome.errNotSet, faillog)
  | some wp =>
    if rateLimited faillog now then
      (LoginOutcome.errTooMany, faillog)
    else if wp == "" || input == wp then
      (LoginOutcome.redirected, faillog)
    else
      (LoginOutcome.errWrong, faillog ++ [now])

/-- `start_proc()` (app.py:235-243): opens a fresh pty pair and spawns the
command; on the state it records the new master descriptor and process
handle. It does not touch `hist` or `faillog`. -/
def start_proc (s : AppState) (masterFd : Nat) (p : ProcHandle) : AppState :=
  { s with fd := some masterFd, proc := some p }

/-- Response of the `/heartbeat` route. -/
inductive HbStatus where
  | forbidden
  | restarted (pid : Nat)
  | running (pid : Nat)
deriving DecidableEq

/-- `heartbeat()` (app.py:159-172). `p` is `request.args.get("p", None)`;
`newFd`/`newProc` are the pty/process a `start_proc()` call would create. -/
def heartbeat (s : AppState) (p : Option String) (newFd : Nat)
    (newProc : ProcHandle) : HbStatus × AppState :=
  match p, s.webpass with
  | none, _ => (HbStatus.forbidden, s)
  | some _, none => (HbStatus.forbidden, s)
  | some pin, some wp =>
    if wp == "" || pin == wp then
      match s.proc with
      | none =>
        let s2 := start_proc s newFd newProc
        (HbStatus.restarted newProc.pid, s2)
      | some pr => (HbStatus.running pr.pid, s)
    else (HbStatus.forbidden, s)

/-- `pty_input()` (app.py:180-187): under the lock, if the descriptor is
truthy, write the encoded input to it. Returns the (unchanged) state and the
list of `os.write` calls performed, as `(fd, text)` pairs. -/
def pty_input (s : AppState) (userLoggedIn : Bool) (input : String) :
    AppState × List (Nat × String) :=
  if is_authenticated s.webpass userLoggedIn then
    match s.fd with
    | some fd => if fd != 0 then (s, [(fd, input)]) else (s, [])
    | none => (s, [])
  else (s, [])

/-- `resize()` (app.py:196-203): under the lock, if the descriptor is
truthy, apply `set_size`. Returns the state and the list of
`set_size`/`ioctl(TIOCSWINSZ)` calls as `(fd, rows, cols)` triples. -/
def resize (s : AppState) (userLoggedIn : Bool) (rows cols : Nat) :
    AppState × List (Nat × Nat × Nat) :=
  if is_authenticated s.webpass userLoggedIn then
    match s.fd with
    | some fd => if fd != 0 then (s, [(fd, rows, cols)]) else (s, [])
    | none => (s, [])
  else (s, [])

/-- Python truthiness of `app.config["proc"]`: a `Popen` object is always
truthy, `None` is not. -/
def procTruthy : Option ProcHandle → Bool
  | none => false
  | some _ => true

/-- `app.config["proc"].poll() is None` — the recorded process is alive. -/
def procAlive : Option ProcHandle → Bool
  | none => false
  | some p => p.alive

/-- Result of the `cmd_run` socket handler `run()` (app.py:246-258). -/
structure RunResult where
  state : AppState
  /-- The full history emitted to the requesting viewer, when replaying. -/
  replay : Option String
  /-- Whether `start_proc()` was invoked. -/
  started : Bool
  /-- `set_size` calls performed, as `(fd, rows, cols)`. -/
  sizeCalls : List (Nat × Nat × Nat)
deriving DecidableEq

/-- `run()` (app.py:246-258): if a truthy descriptor and a live recorded
process exist, apply the geometry and replay the whole history buffer to the
viewer; otherwise start a fresh process and apply the geometry to its pty. -/
def run (s : AppState) (userLoggedIn : Bool) (rows cols : Nat)
    (newFd : Nat) (newProc : ProcHandle) : RunResult :=
  if is_authenticated s.webpass userLoggedIn then
    if fdTruthy s.fd && (procTruthy s.proc && procAlive s.proc) then
      ⟨s, some s.hist, false, [(s.fd.getD 0, rows, cols)]⟩
    else
      ⟨start_proc s newFd newProc, none, true, [(newFd, rows, cols)]⟩
  else ⟨s, none, false, []⟩

/-- Result of the `cmd_stop` socket handler `stop()` (app.py:271-285). -/
structure StopResult where
  state : AppState
  /-- The process handed to the background `kill_proc` task, if any. -/
  killTask : Option ProcHandle
deriving DecidableEq

/-- `stop()` (app.py:271-285): if authenticated, restart allowed and a
process is recorded, clear `fd`, `proc` and `hist` under the lock, then hand
the old process to a background `kill_proc` task. -/
def stop (s : AppState) (userLoggedIn : Bool) : StopResult :=
  if is_authenticated s.webpass userLoggedIn then
    if s.allow_restart then
      match s.proc with
      | some pr => ⟨{ s with fd := none, proc := none, hist := "" }, some pr⟩
      | none => ⟨s, none⟩
    else ⟨s, none⟩
  else ⟨s, none⟩

/-- The signal sent first by the kill sequence. -/
inductive Sig where
  | sigint
deriving DecidableEq

/-- Observable events of `kill_proc` (app.py:260-268). `signalToGroup`
and `sleepMs` never occur in the embedded code; they exist so that the
specified behaviour (group signal, timed grace period) can be stated. -/
inductive KillEvent where
  /-- `Popen.send_signal(sig)`: delivered to the single child process. -/
  | signalToProc (pid : Nat) (sg : Sig)
  /-- `os.killpg`-style delivery to the whole process group. -/
  | signalToGroup (pid : Nat) (sg : Sig)
  /-- A sleep of `ms` milliseconds between exit polls. -/
  | sleepMs (ms : Nat)
  /-- `Popen.kill()`: SIGKILL to the single child process. -/
  | forceKill (pid : Nat)
deriving DecidableEq

/-- Whether any of the first `n` polls of `proc.poll()` returned a value
(`pollSeq i` is the result of the poll in iteration `i`). -/
def exitObserved (pollSeq : Nat → Option Int) : Nat → Bool
  | 0 => false
  | n + 1 => exitObserved pollSeq n || (pollSeq n).isSome

/-- `kill_proc()` (app.py:260-268): `proc.send_signal(signal.SIGINT)`, then
`for _ in range(10)` polling `proc.poll()` with no sleep in between, breaking
on a non-`None` poll; the `else` of the loop calls `proc.kill()`. Returns the
list of observable events in order. -/
def kill_proc (pid : Nat) (pollSeq : Nat → Option Int) : List KillEvent :=
  KillEvent.signalToProc pid Sig.sigint ::
    (if exitObserved pollSeq 10 then [] else [KillEvent.forceKill pid])

/-- `max_read_bytes = 1024 * 20` (app.py:207). -/
def max_read_bytes : Nat := 1024 * 20

/-- One iteration of the reader loop body of `read_and_forward_pty_output()`
(app.py:206-221): `os.read(fd, max_read_bytes)` takes at most
`max_read_bytes` of the pending pty bytes, the result is decoded with
`errors="ignore"`, appended to `hist` and emitted to all viewers. Returns
the new history and the emitted chunk. -/
def read_step (hist : String) (avail : List Nat) : String × String :=
  let output := bytesDecode DecodeMode.ignoreErrors (avail.take max_read_bytes)
  (hist ++ output, output)

/-- The reader loop of `read_and_forward_pty_output()` run over a sequence of
reads (`chunks` lists, per wake-up, the bytes `os.read` returned). Returns
the final history and the emitted chunks in emission order. -/
def read_and_forward_pty_output (hist : String) (chunks : List (List Nat)) :
    String × List String :=
  match chunks with
  | [] => (hist, [])
  | c :: rest =>
    let step := read_step hist c
    let tail := read_and_forward_pty_output step.1 rest
    (tail.1, step.2 :: tail.2)

/-- The exit notice of `disconnect_on_proc_exit` (app.py:223-232). -/
def exit_notice (rc : Int) : String :=
  "\r\n\nThe program has exited with returncode " ++ toString rc ++
    ". \r\nRefresh the page to restart the program."

/-- `disconnect_on_proc_exit()` (app.py:223-232): once the process exits,
if it is still the recorded one, append the exit notice to the history (and
emit it); the `fd`/`proc` fields are left untouched. -/
def disconnect_on_proc_exit (s : AppState) (p : ProcHandle) (rc : Int) :
    AppState :=
  if s.proc = some p then { s with hist := s.hist ++ exit_notice rc } else s

/-- Concatenation of a list of strings in order. -/
def strConcat : List String → String
  | [] => ""
  | s :: rest => s ++ strConcat rest

/-! ### Helper lemmas -/

lemma strConcat_append (l1 l2 : List String) :
    strConcat (l1 ++ l2) = strConcat l1 ++ strConcat l2 := by
  induction l1 with
  | nil => rfl
  | cons s rest ih =>
    show s ++ strConcat (rest ++ l2) = s ++ strConcat rest ++ strConcat l2
    rw [ih, String.append_assoc]

lemma utf8Decode_ascii_cons (em : DecodeMode) (a : Nat) (rest : List Nat)
    (ha : a ≤ 0x7F) :
    utf8Decode em (a :: rest) = Char.ofNat a :: utf8Decode em rest := by
  rw [utf8Decode.eq_def]
  simp [ha]

lemma utf8Decode_invalid_lead (em : DecodeMode) (b : Nat) (rest : List Nat)
    (hb : 0xF5 ≤ b) :
    utf8Decode em (b :: rest) = errOut em ++ utf8Decode em rest := by
  have h1 : ¬b ≤ 0x7F := by omega
  have h2 : ¬(0xC2 ≤ b ∧ b ≤ 0xDF) := by omega
  have h3 : ¬(0xE0 ≤ b ∧ b ≤ 0xEF) := by omega
  have h4 : ¬(0xF0 ≤ b ∧ b ≤ 0xF4) := by omega
  rw [utf8Decode.eq_def]
  simp [h1, h2, h3, h4]

lemma utf8Decode_ascii_append (em : DecodeMode) (xs rest : List Nat)
    (h : ∀ a ∈ xs, a ≤ 0x7F) :
    utf8Decode em (xs ++ rest) = xs.map Char.ofNat ++ utf8Decode em rest := by
  induction xs with
  | nil => rfl
  | cons a xs ih =>
    have ha : a ≤ 0x7F := h a (List.mem_cons_self a xs)
    have hxs : ∀ x ∈ xs, x ≤ 0x7F := fun x hx => h x (List.mem_cons_of_mem a hx)
    simp only [List.cons_append, List.map_cons]
    rw [utf8Decode_ascii_cons em a _ ha, ih hxs]

lemma read_step_eq (h : String) (c : List Nat) :
    read_step h c = (h ++ (read_step "" c).2, (read_step "" c).2) := rfl

lemma read_and_forward_eq (h : String) (chunks : List (List Nat)) :
    read_and_forward_pty_output h chunks =
      (h ++ strConcat (chunks.map fun c => (read_step "" c).2),
        chunks.map fun c => (read_step "" c).2) := by
  induction chunks generalizing h with
  | nil => simp [read_and_forward_pty_output, strConcat]
  | cons c rest ih =>
    show ((read_and_forward_pty_output (read_step h c).1 rest).1,
        (read_step h c).2 :: (read_and_forward_pty_output (read_step h c).1 rest).2) = _
    rw [read_step_eq h c, ih]
    simp only [List.map_cons, strConcat]
    rw [String.append_assoc]

/-! ### Claim C1 -/

/-- C1 counterexample: `start_proc` does not reset the History Buffer. On a
state whose history still holds a previous session's output, running
`start_proc` leaves that output in place, so the history is not reset to the
empty string when a new session starts. -/
theorem c1_start_proc_keeps_history_counterexample :
    (start_proc ⟨none, none, "old-session-output", [], none, true⟩ 3 ⟨7, true⟩).hist
        = "old-session-output" ∧
    "old-session-output" ≠ ("" : String) :=
  ⟨rfl, by decide⟩

/-- C1 (amended): the History Buffer is reset to the empty string by
`stop()` (when it acts at all), not by `start_proc`; `start_proc` leaves the
history unchanged. Hence a session started right after an effective stop
begins with an empty history, while a session restarted after the previous
process exited on its own retains the previous session's output. -/
theorem c1_history_reset_by_stop_not_start (s : AppState) (u : Bool)
    (masterFd : Nat) (p : ProcHandle) :
    (start_proc s masterFd p).hist = s.hist ∧
    ((stop s u).state.hist = "" ∨ (stop s u).state = s) ∧
    (start_proc (stop s u).state masterFd p).hist = (stop s u).state.hist := by
  refine ⟨rfl, ?_, rfl⟩
  unfold stop
  split
  · split
    · split
      · left; rfl
      · right; rfl
    · right; rfl
  · right; rfl

/-! ### Claim C3 -/

/-- C3 counterexample: for a process (pid 42) that never exits during the
poll loop, the kill sequence is exactly an interrupt delivered to the single
process followed immediately by the forced kill — no signal is sent to the
process group, and no sleep separates the polls, so there is no ≈1-second
grace period sampled at ~100 ms. -/
theorem c3_kill_proc_counterexample :
    kill_proc 42 (fun _ => none) =
      [KillEvent.signalToProc 42 Sig.sigint, KillEvent.forceKill 42] ∧
    KillEvent.signalToGroup 42 Sig.sigint ∉ kill_proc 42 (fun _ => none) ∧
    KillEvent.sleepMs 100 ∉ kill_proc 42 (fun _ => none) := by
  decide

/-- C3 (amended): the kill sequence first sends SIGINT to the single process
(not to the process group), then polls `poll()` up to 10 times with no sleep
between polls (so the grace period has no timed duration), and sends the
forced kill iff none of those 10 polls observed an exit. -/
theorem c3_kill_proc_sequence (pid : Nat) (pollSeq : Nat → Option Int) :
    (kill_proc pid pollSeq).head? = some (KillEvent.signalToProc pid Sig.sigint) ∧
    (∀ gp sg, KillEvent.signalToGroup gp sg ∉ kill_proc pid pollSeq) ∧
    (∀ ms, KillEvent.sleepMs ms ∉ kill_proc pid pollSeq) ∧
    (KillEvent.forceKill pid ∈ kill_proc pid pollSeq ↔
      exitObserved pollSeq 10 = false) := by
  unfold kill_proc
  refine ⟨rfl, ?_, ?_, ?_⟩ <;> cases h : exitObserved pollSeq 10 <;> simp [h]

/-! ### Claim C8 -/

/-- C8: a resize event arriving while no session is active (`fd` is `None`)
is a no-op: the state is unchanged, no `set_size`/`ioctl` call is issued,
and no error is raised (the handler returns normally). -/
theorem c8_resize_noop_without_fd (s : AppState) (u : Bool) (rows cols : Nat)
    (h : s.fd = none) : resize s u rows cols = (s, []) := by
  unfold resize
  rw [h]
  split <;> rfl

/-- C8 witness: the no-session resize no-op at a concrete state. -/
theorem c8_resize_noop_without_fd_witness :
    resize ⟨none, none, "", [], none, true⟩ true 24 80 =
      (⟨none, none, "", [], none, true⟩, []) :=
  c8_resize_noop_without_fd ⟨none, none, "", [], none, true⟩ true 24 80 rfl

/-! ### Claim C9 -/

/-- C9: after `stop()` has acted, the descriptor field is `None`, and a
viewer input event on such a state performs no `os.write` and raises no
error; generally any input event on a state with `fd = None` is a no-op. -/
theorem c9_pty_input_noop_after_stop (s s0 : AppState) (u u2 : Bool)
    (txt : String) (pr : ProcHandle) (hpr : s.proc = some pr)
    (har : s.allow_restart = true)
    (hau : is_authenticated s.webpass u = true) (h0 : s0.fd = none) :
    (stop s u).state.fd = none ∧
    pty_input (stop s u).state u2 txt = ((stop s u).state, []) ∧
    pty_input s0 u2 txt = (s0, []) := by
  have hnone : ∀ s1 : AppState, s1.fd = none → pty_input s1 u2 txt = (s1, []) := by
    intro s1 h1
    unfold pty_input
    rw [h1]
    split <;> rfl
  have hstop : (stop s u).state = { s with fd := none, proc := none, hist := "" } := by
    simp [stop, hau, har, hpr]
  exact ⟨by rw [hstop], hnone _ (by rw [hstop]), hnone s0 h0⟩

/-- C9 witness: the post-stop no-write guarantee at a concrete state. -/
theorem c9_pty_input_noop_after_stop_witness :
    (stop ⟨some 3, some ⟨7, true⟩, "h", [], none, true⟩ true).state.fd = none ∧
    pty_input (stop ⟨some 3, some ⟨7, true⟩, "h", [], none, true⟩ true).state
        false "ls" =
      ((stop ⟨some 3, some ⟨7, true⟩, "h", [], none, true⟩ true).state, []) ∧
    pty_input ⟨none, none, "", [], none, true⟩ false "ls" =
      (⟨none, none, "", [], none, true⟩, []) :=
  c9_pty_input_noop_after_stop ⟨some 3, some ⟨7, true⟩, "h", [], none, true⟩
    ⟨none, none, "", [], none, true⟩ true false "ls" ⟨7, true⟩ rfl rfl rfl rfl

/-! ### Claim C4 -/

/-- C4 counterexample: with a configured secret, a correct `p` parameter and
a recorded process that has terminated on its own (`alive = false`, pid 42),
the heartbeat endpoint reports "running" with the stale pid 42 (HTTP 200
path) instead of detecting the dead process and reporting "restarted" with a
new pid — the code only checks `proc is None`, not liveness. -/
theorem c4_heartbeat_stale_pid_counterexample :
    (heartbeat ⟨some 3, some ⟨42, false⟩, "", [], some "pw", true⟩
        (some "pw") 5 ⟨99, true⟩).1 = HbStatus.running 42 ∧
    HbStatus.running 42 ≠ HbStatus.restarted 99 := by
  decide

/-- C4 (amended): when the recorded process has terminated on its own, the
`run` event handler detects it (via `poll()`) and starts a fresh process;
the heartbeat endpoint does not: it reports "running" with the stale pid
whenever a process handle is recorded, and starts a fresh process (reporting
"restarted" with the new pid) only when the handle is `None`. -/
theorem c4_run_restarts_dead_proc_heartbeat_not (s : AppState) (u : Bool)
    (rows cols newFd : Nat) (np pr : ProcHandle) (wp pin : String)
    (hpr : s.proc = some pr) (hdead : pr.alive = false)
    (hwp : s.webpass = some wp) (hpin : pin = wp) (hu : u = true) :
    (run s u rows cols newFd np).started = true ∧
    (run s u rows cols newFd np).state.proc = some np ∧
    (run s u rows cols newFd np).state.fd = some newFd ∧
    (heartbeat s (some pin) newFd np).1 = HbStatus.running pr.pid ∧
    (heartbeat { s with proc := none } (some pin) newFd np).1 =
      HbStatus.restarted np.pid := by
  subst hpin hu
  have hauth : is_authenticated s.webpass true = true := by
    simp [is_authenticated]
  refine ⟨?_, ?_, ?_, ?_, ?_⟩
  · simp [run, hauth, hpr, procAlive, hdead, start_proc]
  · simp [run, hauth, hpr, procAlive, hdead, start_proc]
  · simp [run, hauth, hpr, procAlive, hdead, start_proc]
  · simp [heartbeat, hwp, hpr]
  · simp [heartbeat, hwp, start_proc]

/-- C4 witness: the amended behaviour at a concrete dead-process state. -/
theorem c4_run_restarts_dead_proc_heartbeat_not_witness :
    (run ⟨some 3, some ⟨42, false⟩, "", [], some "pw", true⟩ true 24 80 5
        ⟨99, true⟩).started = true ∧
    (run ⟨some 3, some ⟨42, false⟩, "", [], some "pw", true⟩ true 24 80 5
        ⟨99, true⟩).state.proc = some ⟨99, true⟩ ∧
    (run ⟨some 3, some ⟨42, false⟩, "", [], some "pw", true⟩ true 24 80 5
        ⟨99, true⟩).state.fd = some 5 ∧
    (heartbeat ⟨some 3, some ⟨42, false⟩, "", [], some "pw", true⟩ (some "pw")
        5 ⟨99, true⟩).1 = HbStatus.running 42 ∧
    (heartbeat ⟨some 3, none, "", [], some "pw", true⟩ (some "pw") 5
        ⟨99, true⟩).1 = HbStatus.restarted 99 :=
  c4_run_restarts_dead_proc_heartbeat_not
    ⟨some 3, some ⟨42, false⟩, "", [], some "pw", true⟩ true 24 80 5
    ⟨99, true⟩ ⟨42, false⟩ "pw" "pw" rfl rfl rfl rfl rfl

/-! ### Claim C5 -/

/-- C5 counterexample: with no secret configured (`webpass = None`) the
access gate grants every request, yet the heartbeat endpoint rejects a
request carrying a `p` parameter with 403 — so one gated entry point does
reject a request solely because no secret is set. -/
theorem c5_heartbeat_forbidden_without_webpass_counterexample :
    is_authenticated none true = true ∧
    (heartbeat ⟨some 3, some ⟨42, true⟩, "", [], none, true⟩ (some "x") 5
        ⟨99, true⟩).1 = HbStatus.forbidden := by
  decide

/-- C5 (amended): with no truthy secret configured the authentication check
passes, and the console page (and the socket handlers gated by the same
check) are served; the heartbeat endpoint however rejects every request with
403 when the secret is unset (`None`), and grants open access only when the
secret is configured as the empty string and some `p` parameter is given. -/
theorem c5_open_access_except_heartbeat (s : AppState) (u : Bool)
    (p : Option String) (pin : String) (newFd : Nat) (np : ProcHandle) :
    is_authenticated none u = true ∧
    is_authenticated (some "") u = true ∧
    (s.webpass = none → console s u = PageResult.rendered) ∧
    (s.webpass = none → (heartbeat s p newFd np).1 = HbStatus.forbidden) ∧
    (s.webpass = some "" →
      (heartbeat s (some pin) newFd np).1 ≠ HbStatus.forbidden) := by
  refine ⟨rfl, by simp [is_authenticated, passTruthy], ?_, ?_, ?_⟩
  · intro h
    simp [console, is_authenticated, passTruthy, h]
  · intro h
    cases p with
    | none => rfl
    | some pin2 => simp [heartbeat, h]
  · intro h
    cases hp : s.proc <;> simp [heartbeat, h, hp]

/-- C5 witness: the amended behaviour at concrete states, one with
`webpass = None` and one with `webpass = ""`. -/
theorem c5_open_access_except_heartbeat_witness :
    console ⟨none, none, "", [], none, true⟩ true = PageResult.rendered ∧
    (heartbeat ⟨none, none, "", [], none, true⟩ (some "x") 5 ⟨99, true⟩).1 =
      HbStatus.forbidden ∧
    (heartbeat ⟨none, none, "", [], some "", true⟩ (some "x") 5 ⟨99, true⟩).1 ≠
      HbStatus.forbidden :=
  ⟨(c5_open_access_except_heartbeat ⟨none, none, "", [], none, true⟩ true
      (some "x") "x" 5 ⟨99, true⟩).2.2.1 rfl,
    (c5_open_access_except_heartbeat ⟨none, none, "", [], none, true⟩ true
      (some "x") "x" 5 ⟨99, true⟩).2.2.2.1 rfl,
    (c5_open_access_except_heartbeat ⟨none, none, "", [], some "", true⟩ true
      (some "x") "x" 5 ⟨99, true⟩).2.2.2.2 rfl⟩

/-! ### Rate-limit helper lemmas -/

lemma lastFive_length_le (l : List Int) : (lastFive l).length ≤ 5 := by
  simp [lastFive, List.length_drop]
  omega

lemma rateLimited_eq_true_iff (l : List Int) (t : Int) :
    rateLimited l t = true ↔
      (lastFive l).countP (fun x => decide (t - 3600 < x)) = 5 := by
  simp [rateLimited]

/-- If the (chronologically sorted) failure log holds at least 5 timestamps
inside the trailing hour, the last-5 window test of `login_submit` fires. -/
lemma sorted_many_recent_rateLimited (l : List Int) (now : Int)
    (hs : l.Pairwise (fun a b => a ≤ b))
    (hc : 5 ≤ l.countP (fun x => decide (now - 3600 < x))) :
    rateLimited l now = true := by
  have hlen : 5 ≤ l.length :=
    le_trans hc (List.countP_le_length (fun x => decide (now - 3600 < x)))
  have hdlen : (lastFive l).length = 5 := by
    simp [lastFive, List.length_drop]
    omega
  have hdle : (lastFive l).countP (fun x => decide (now - 3600 < x)) ≤ 5 := by
    have h1 := List.countP_le_length (fun x => decide (now - 3600 < x))
      (l := lastFive l)
    omega
  have hsplitc : l.countP (fun x => decide (now - 3600 < x)) =
      (l.take (l.length - 5)).countP (fun x => decide (now - 3600 < x)) +
        (lastFive l).countP (fun x => decide (now - 3600 < x)) := by
    conv_lhs => rw [← List.take_append_drop (l.length - 5) l]
    exact List.countP_append _ _ _
  rw [rateLimited_eq_true_iff]
  rcases Nat.eq_zero_or_pos
    ((l.take (l.length - 5)).countP (fun x => decide (now - 3600 < x))) with
    h0 | hpos
  · omega
  · obtain ⟨e, he, hpe⟩ := List.countP_pos_iff.mp hpos
    have hpair : (l.take (l.length - 5) ++ lastFive l).Pairwise
        (fun a b => a ≤ b) := by
      show (l.take (l.length - 5) ++ l.drop (l.length - 5)).Pairwise _
      rw [List.take_append_drop]
      exact hs
    have hord : ∀ b ∈ lastFive l, e ≤ b :=
      fun b hb => (List.pairwise_append.mp hpair).2.2 e he b hb
    have hall : ∀ b ∈ lastFive l, decide (now - 3600 < b) = true := by
      intro b hb
      have h1 : now - 3600 < e := by simpa using hpe
      have h2 := hord b hb
      simp
      omega
    rw [List.countP_eq_length.mpr hall, hdlen]

/-- While 5 failures are recorded in the window, the blocked state at any
time `t` holds exactly until one hour after the earliest of the last five
recorded failures. -/
lemma rateLimited_window_iff (l : List Int) (now t : Int)
    (hs : l.Pairwise (fun a b => a ≤ b))
    (hl : rateLimited l now = true) :
    (rateLimited l t = true ↔ t < (lastFive l).getD 0 0 + 3600) := by
  have h5 : (lastFive l).countP (fun x => decide (now - 3600 < x)) = 5 :=
    (rateLimited_eq_true_iff l now).mp hl
  have hcl := List.countP_le_length (fun x => decide (now - 3600 < x))
    (l := lastFive l)
  have hle := lastFive_length_le l
  have hlen : (lastFive l).length = 5 := by omega
  have hs5 : (lastFive l).Pairwise (fun a b => a ≤ b) := hs.drop
  cases hlf : lastFive l with
  | nil => rw [hlf] at hlen; simp at hlen
  | cons x xs =>
    rw [hlf] at hlen hs5
    have hxle : ∀ b ∈ xs, x ≤ b := (List.pairwise_cons.mp hs5).1
    rw [rateLimited_eq_true_iff, hlf, List.getD_cons_zero]
    constructor
    · intro h5t
      have hallt : ∀ b ∈ x :: xs, decide (t - 3600 < b) = true := by
        apply List.countP_eq_length.mp
        rw [h5t, hlen]
      have hx : t - 3600 < x := by
        have := hallt x (List.mem_cons_self x xs)
        simpa using this
      omega
    · intro ht
      have hallt : ∀ b ∈ x :: xs, decide (t - 3600 < b) = true := by
        intro b hb
        rcases List.mem_cons.mp hb with rfl | hb2
        · simp
          omega
        · have := hxle b hb2
          simp
          omega
      rw [List.countP_eq_length.mpr hallt, hlen]

/-! ### Claim C2 -/

/-- C2: with a non-empty secret configured: (1) if the chronologically
ordered failure log holds at least 5 timestamps inside the trailing hour,
the login check fails with "too many trials" — for every candidate,
including the correct one; (2) when the window test does not fire, a correct
candidate succeeds (and records nothing); (3) when it does not fire, a wrong
candidate fails and appends the current timestamp to the failure log. -/
theorem c2_login_rate_limit (wp input : String) (faillog : List Int)
    (now : Int) :
    (faillog.Pairwise (fun a b => a ≤ b) →
      5 ≤ faillog.countP (fun x => decide (now - 3600 < x)) →
      login_submit (some wp) faillog input now =
        (LoginOutcome.errTooMany, faillog)) ∧
    (rateLimited faillog now = false → input = wp →
      login_submit (some wp) faillog input now =
        (LoginOutcome.redirected, faillog)) ∧
    (rateLimited faillog now = false → wp ≠ "" → input ≠ wp →
      login_submit (some wp) faillog input now =
        (LoginOutcome.errWrong, faillog ++ [now])) := by
  refine ⟨?_, ?_, ?_⟩
  · intro hs hc
    have h := sorted_many_recent_rateLimited faillog now hs hc
    simp [login_submit, h]
  · intro hrl hin
    simp [login_submit, hrl, hin]
  · intro hrl hwp hin
    have hcond : (wp == "" || input == wp) = false := by
      simp [hwp, hin]
    simp [login_submit, hrl, hcond]

/-- C2 witness: the three login behaviours at concrete inputs — a blocked
correct attempt with 6 recent failures, a successful attempt with an empty
log, and a wrong attempt that appends its timestamp. -/
theorem c2_login_rate_limit_witness :
    login_submit (some "pw") [7000, 8000, 8100, 8200, 8300, 8400] "pw" 10000 =
      (LoginOutcome.errTooMany, [7000, 8000, 8100, 8200, 8300, 8400]) ∧
    login_submit (some "pw") [] "pw" 10000 = (LoginOutcome.redirected, []) ∧
    login_submit (some "pw") [] "zz" 10000 =
      (LoginOutcome.errWrong, [(10000 : Int)]) :=
  ⟨(c2_login_rate_limit "pw" "pw" [7000, 8000, 8100, 8200, 8300, 8400]
      10000).1 (by decide) (by decide),
    (c2_login_rate_limit "pw" "pw" [] 10000).2.1 (by decide) rfl,
    (c2_login_rate_limit "pw" "zz" [] 10000).2.2 (by decide) (by decide)
      (by decide)⟩

/-! ### Claim C10 -/

/-- C10: a login attempt rejected by the rate limiter leaves the failure log
unchanged; the log grows only when a non-empty secret is compared against a
mismatching candidate outside the blocked state (and then by exactly the
current timestamp); and while blocked, since the log does not grow, the
blocked state at any time `t` lasts exactly until one hour after the
earliest of the last five recorded failures. -/
theorem c10_faillog_growth (webpass : Option String) (wp input : String)
    (faillog : List Int) (now t : Int) :
    (rateLimited faillog now = true →
      (login_submit webpass faillog input now).2 = faillog) ∧
    ((login_submit (some wp) faillog input now).2 ≠ faillog →
      wp ≠ "" ∧ input ≠ wp ∧ rateLimited faillog now = false ∧
      (login_submit (some wp) faillog input now).2 = faillog ++ [now]) ∧
    (faillog.Pairwise (fun a b => a ≤ b) → rateLimited faillog now = true →
      (rateLimited faillog t = true ↔
        t < (lastFive faillog).getD 0 0 + 3600)) := by
  refine ⟨?_, ?_, ?_⟩
  · intro h
    cases webpass with
    | none => rfl
    | some wp2 => simp [login_submit, h]
  · intro hne
    cases hrl : rateLimited faillog now with
    | true => exact absurd (by simp [login_submit, hrl]) hne
    | false =>
      cases hcond : (wp == "" || input == wp) with
      | true => exact absurd (by simp [login_submit, hrl, hcond]) hne
      | false =>
        have hw : wp ≠ "" := by
          intro he
          rw [he] at hcond
          simp at hcond
        have hi : input ≠ wp := by
          intro he
          rw [he] at hcond
          simp at hcond
        exact ⟨hw, hi, rfl, by simp [login_submit, hrl, hcond]⟩
  · intro hs hl
    exact rateLimited_window_iff faillog now t hs hl

/-- C10 witness: the no-growth and window-end behaviour at concrete inputs
(5 recent failures starting at 8000; block present at 10000 and tested at
12000, one hour past 8000). -/
theorem c10_faillog_growth_witness :
    (login_submit (some "pw") [8000, 8100, 8200, 8300, 8400] "pw" 10000).2 =
      [8000, 8100, 8200, 8300, 8400] ∧
    ("pw" ≠ "" ∧ "zz" ≠ "pw" ∧ rateLimited [] 10000 = false ∧
      (login_submit (some "pw") [] "zz" 10000).2 = [] ++ [(10000 : Int)]) ∧
    (rateLimited [8000, 8100, 8200, 8300, 8400] 12000 = true ↔
      12000 < (lastFive [8000, 8100, 8200, 8300, 8400]).getD 0 0 + 3600) :=
  ⟨(c10_faillog_growth (some "pw") "pw" "pw" [8000, 8100, 8200, 8300, 8400]
      10000 12000).1 (by decide),
    (c10_faillog_growth (some "pw") "pw" "zz" [] 10000 12000).2.1 (by decide),
    (c10_faillog_growth (some "pw") "pw" "pw" [8000, 8100, 8200, 8300, 8400]
      10000 12000).2.2 (by decide) (by decide)⟩

/-! ### Claim C6 -/

/-- C6 counterexample: the reader decodes with `errors="ignore"`, so the
invalid byte 0xFF is dropped: the chunk published for the read `[0xFF]` is
the empty string, not the replacement character U+FFFD that a replacing
decoder produces — invalid sequences are dropped, not replaced. -/
theorem c6_read_step_drops_invalid_counterexample :
    (read_step "" [255]).2 = "" ∧
    bytesDecode DecodeMode.replaceErrors [255] = String.mk [replacementChar] ∧
    ("" : String) ≠ String.mk [replacementChar] := by
  refine ⟨?_, ?_, by decide⟩
  · simp [read_step, bytesDecode, utf8Decode, errOut, max_read_bytes]
  · simp [bytesDecode, utf8Decode, errOut]

/-- C6 (amended): on each wake the reader reads at most `max_read_bytes`
(20 KiB) from the pty, decodes the bytes with `errors="ignore"` — invalid
byte sequences are dropped (never replaced, never an exception) — appends
the decoded chunk to the History Buffer and publishes exactly that chunk;
concretely, an invalid lead byte between ASCII runs disappears from the
reader's output where a replacing decoder would emit U+FFFD. -/
theorem c6_read_step_spec (hist : String) (avail xs ys : List Nat) (b : Nat)
    (hxs : ∀ a ∈ xs, a ≤ 127) (hb : 245 ≤ b) :
    read_step hist avail =
      (hist ++ bytesDecode DecodeMode.ignoreErrors (avail.take max_read_bytes),
        bytesDecode DecodeMode.ignoreErrors (avail.take max_read_bytes)) ∧
    (avail.take max_read_bytes).length ≤ max_read_bytes ∧
    utf8Decode DecodeMode.ignoreErrors (xs ++ b :: ys) =
      xs.map Char.ofNat ++ utf8Decode DecodeMode.ignoreErrors ys ∧
    utf8Decode DecodeMode.replaceErrors (xs ++ b :: ys) =
      xs.map Char.ofNat ++
        replacementChar :: utf8Decode DecodeMode.replaceErrors ys := by
  refine ⟨rfl, ?_, ?_, ?_⟩
  · exact List.length_take_le _ _
  · rw [utf8Decode_ascii_append _ _ _ hxs, utf8Decode_invalid_lead _ _ _ hb]
    rfl
  · rw [utf8Decode_ascii_append _ _ _ hxs, utf8Decode_invalid_lead _ _ _ hb]
    rfl

/-- C6 witness: the amended read/decode behaviour at concrete inputs
("hi", an invalid 0xFF, then "!"). -/
theorem c6_read_step_spec_witness :
    read_step "h" [65] =
      ("h" ++ bytesDecode DecodeMode.ignoreErrors ([65].take max_read_bytes),
        bytesDecode DecodeMode.ignoreErrors ([65].take max_read_bytes)) ∧
    ([65].take max_read_bytes).length ≤ max_read_bytes ∧
    utf8Decode DecodeMode.ignoreErrors ([104, 105] ++ 255 :: [33]) =
      [104, 105].map Char.ofNat ++ utf8Decode DecodeMode.ignoreErrors [33] ∧
    utf8Decode DecodeMode.replaceErrors ([104, 105] ++ 255 :: [33]) =
      [104, 105].map Char.ofNat ++
        replacementChar :: utf8Decode DecodeMode.replaceErrors [33] :=
  c6_read_step_spec "h" [65] [104, 105] [33] 255 (by decide) (by decide)

/-! ### Claim C7 -/

/-- C7: for a session whose history starts empty, the history after the
first `n` reads equals the concatenation of the `n` published chunks in
read order; the replay that `run` sends to a viewer attaching at that point
is exactly that history; and the history after `n` reads extended by the
later chunks equals the history after any `m ≥ n` reads, so it is a prefix
of what earlier-attached viewers have received. -/
theorem c7_history_concat_and_replay (chunks : List (List Nat)) (n m : Nat)
    (hnm : n ≤ m) :
    (read_and_forward_pty_output "" (chunks.take n)).1 =
      strConcat (read_and_forward_pty_output "" (chunks.take n)).2 ∧
    (read_and_forward_pty_output "" (chunks.take n)).2 =
      (chunks.take n).map (fun c => (read_step "" c).2) ∧
    (run ⟨some 3, some ⟨42, true⟩,
        (read_and_forward_pty_output "" (chunks.take n)).1, [], none, true⟩
      true 24 80 7 ⟨99, true⟩).replay =
      some (read_and_forward_pty_output "" (chunks.take n)).1 ∧
    (read_and_forward_pty_output "" (chunks.take n)).1 ++
        strConcat (((chunks.take m).drop n).map fun c => (read_step "" c).2) =
      (read_and_forward_pty_output "" (chunks.take m)).1 := by
  have hn := read_and_forward_eq "" (chunks.take n)
  have hm := read_and_forward_eq "" (chunks.take m)
  have hsplit : chunks.take m = chunks.take n ++ (chunks.take m).drop n := by
    conv_lhs => rw [← List.take_append_drop n (chunks.take m)]
    rw [List.take_take, Nat.min_eq_left hnm]
  refine ⟨?_, ?_, rfl, ?_⟩
  · rw [hn]
    rfl
  · rw [hn]
  · rw [hn]
    conv_rhs => rw [hm]
    conv_rhs => rw [hsplit, List.map_append, strConcat_append]
    rw [String.append_assoc]

/-- C7 witness: the history/replay guarantees at the concrete chunk
sequence [[104], [105]] with n = 1, m = 2. -/
theorem c7_history_concat_and_replay_witness :
    (read_and_forward_pty_output "" ([[104], [105]].take 1)).1 =
      strConcat (read_and_forward_pty_output "" ([[104], [105]].take 1)).2 ∧
    (read_and_forward_pty_output "" ([[104], [105]].take 1)).2 =
      ([[104], [105]].take 1).map (fun c => (read_step "" c).2) ∧
    (run ⟨some 3, some ⟨42, true⟩,
        (read_and_forward_pty_output "" ([[104], [105]].take 1)).1, [], none,
        true⟩ true 24 80 7 ⟨99, true⟩).replay =
      some (read_and_forward_pty_output "" ([[104], [105]].take 1)).1 ∧
    (read_and_forward_pty_output "" ([[104], [105]].take 1)).1 ++
        strConcat ((([[104], [105]].take 2).drop 1).map
          fun c => (read_step "" c).2) =
      (read_and_forward_pty_output "" ([[104], [105]].take 2)).1 :=
  c7_history_concat_and_replay [[104], [105]] 1 2 (by decide)

end Websole
